import Mathlib

/-!
Verification of the AWS Bedrock agent query backend
(`src/backend_aws_bedrock_rag/src/api/main.py`).

The development shallowly embeds the fan-out orchestrator (`query_agents`),
the remote invoker (`_invoke_bedrock_agent`, including its response
normalisation, lines 123-136) and the request validation declared on the
pydantic models (`AgentInput`, `QueryAgentsRequest`).

External effects are modelled explicitly:
* Python dict values become the inductive `PyVal`; a Python dict becomes an
  association list `List (String × PyVal)` (keys unique in any real dict,
  first-match lookup agrees with dict lookup).
* The external world (boto3 client construction, the remote
  `invoke_agent` call, and `uuid.uuid4`) is a parameter `Env`.  An
  exception raised by external code is an `Except.error` carrying the
  Python `str(e)` of the exception.
* `uuid.uuid4()` is modelled as a stream `Nat → String` consumed one
  element per generated token; a `TraceState` threads the stream position
  together with the list of remote invocations attempted so far.
-/

/-- A Python value, as far as the backend inspects it: `None`, strings,
numbers, booleans and (nested) dicts.  Python truthiness is `PyVal.truthy`. -/
inductive PyVal where
  | vNone : PyVal
  | vStr : String → PyVal
  | vInt : Int → PyVal
  | vBool : Bool → PyVal
  | vDict : List (String × PyVal) → PyVal

/-- Python truthiness of a `PyVal` (`bool(v)`), used by the `or` chain in
`_invoke_bedrock_agent` line 132. -/
def PyVal.truthy : PyVal → Bool
  | .vNone => false
  | .vStr s => !s.isEmpty
  | .vInt n => n != 0
  | .vBool b => b
  | .vDict entries => !entries.isEmpty

/-- Python `d.get(k)`: the stored value, or `None` when the key is absent. -/
def dget (d : List (String × PyVal)) (k : String) : PyVal :=
  match d.lookup k with
  | some v => v
  | none => .vNone

/-- The keys of a Python dict, in insertion order. -/
def dkeys (d : List (String × PyVal)) : List String :=
  d.map Prod.fst

/-- Line 132 of `main.py`:
`response["completion"].get("text") or response["completion"].get("content") or None`,
followed by the `is not None` test on line 133.  Returns `some t` exactly when
the `or` chain produced a non-`None` (hence truthy) value `t`. -/
def completionText (c : List (String × PyVal)) : Option PyVal :=
  let t := dget c "text"
  if t.truthy then some t
  else
    let u := dget c "content"
    if u.truthy then some u else none

/-- The recognised top-level keys copied verbatim by `_invoke_bedrock_agent`
line 124. -/
def recognizedKeys : List String :=
  ["sessionId", "invocationId", "contentType", "completion"]

/-- Lines 123-126 of `main.py`: copy each recognised key that is present in
the raw response, in the fixed tuple order. -/
def copyRecognized (response : List (String × PyVal)) : List (String × PyVal) :=
  recognizedKeys.filterMap (fun k =>
    match response.lookup k with
    | some v => some (k, v)
    | none => none)

/-- Lines 123-136 of `main.py`: the response normalisation performed at the
end of `_invoke_bedrock_agent`.  Copies recognised keys, then, when
`completion` is a dict holding a truthy `text` or `content` value, stores that
value under the canonical key `text`. -/
def normalizeResponse (response : List (String × PyVal)) : List (String × PyVal) :=
  match response.lookup "completion" with
  | some (.vDict c) =>
    match completionText c with
    | some t => copyRecognized response ++ [("text", t)]
    | none => copyRecognized response
  | _ => copyRecognized response

/-- `AgentInput` (main.py lines 8-13) after validation: one Bedrock agent
descriptor. -/
structure AgentInput where
  role : String
  agent_id : String
  alias_id : String
  region : String
deriving DecidableEq, Repr

/-- `QueryAgentsRequest` (main.py lines 16-19) after validation. -/
structure QueryAgentsRequest where
  agents : List AgentInput
  query : String
deriving DecidableEq, Repr

/-- `AgentResponse` (main.py lines 22-30): the per-agent outcome. -/
structure AgentResponse where
  role : String
  agent_id : String
  alias_id : String
  region : String
  success : Bool
  output : Option (List (String × PyVal))
  error : Option String

/-- `QueryAgentsResponse` (main.py lines 33-36). -/
structure QueryAgentsResponse where
  query : String
  results : List AgentResponse

/-- A fastapi `HTTPException`, as raised on main.py line 172 and as produced
by request validation. -/
structure HTTPException where
  status_code : Nat
  detail : String
deriving DecidableEq, Repr

/-- One attempted remote invocation: the arguments of the
`client.invoke_agent(...)` call on main.py lines 111-116. -/
structure CallRecord where
  region : String
  agent_id : String
  alias_id : String
  session_id : String
  inputText : String
deriving DecidableEq, Repr

/-- Observable trace of the external interactions: the next position of the
UUID stream and the remote invocations attempted so far. -/
structure TraceState where
  ctr : Nat
  calls : List CallRecord
deriving DecidableEq, Repr

/-- The external world as seen by the backend:
* `clientError region = some msg` means constructing the per-region client
  raises an exception whose `str` is `msg` (e.g. boto3 unavailable,
  main.py lines 81-88);
* `invokeAgent region agentId aliasId sessionId inputText` is the remote
  `invoke_agent` call — `Except.error msg` models a raised exception;
* `uuidStream` is the stream of values produced by successive
  `str(uuid.uuid4())` calls. -/
structure Env where
  clientError : String → Option String
  invokeAgent : String → String → String → String → String →
    Except String (List (String × PyVal))
  uuidStream : Nat → String

/-- `_invoke_bedrock_agent` (main.py lines 91-136): construct the per-region
client (may raise), generate a fresh session id from the UUID stream, perform
the remote call (recorded in the trace), and normalise the raw response.
Returns the Python result (`Except.error` = exception propagated to the
caller) together with the updated trace. -/
def invoke_bedrock_agent (env : Env) (st : TraceState)
    (region agent_id alias_id query : String) :
    Except String (List (String × PyVal)) × TraceState :=
  match env.clientError region with
  | some msg => (.error msg, st)
  | none =>
    match env.invokeAgent region agent_id alias_id (env.uuidStream st.ctr) query with
    | .error e =>
      (.error e,
       ⟨st.ctr + 1,
        st.calls ++ [⟨region, agent_id, alias_id, env.uuidStream st.ctr, query⟩]⟩)
    | .ok response =>
      (.ok (normalizeResponse response),
       ⟨st.ctr + 1,
        st.calls ++ [⟨region, agent_id, alias_id, env.uuidStream st.ctr, query⟩]⟩)

/-- The per-item boundary of `query_agents` (main.py lines 177-207): a
successful invocation is wrapped with `success=True`, a raised exception is
caught and wrapped with `success=False` and `error=str(e)`. -/
def mkResponse (agent : AgentInput)
    (r : Except String (List (String × PyVal))) : AgentResponse :=
  match r with
  | .ok output =>
    ⟨agent.role, agent.agent_id, agent.alias_id, agent.region, true, some output, none⟩
  | .error e =>
    ⟨agent.role, agent.agent_id, agent.alias_id, agent.region, false, none, some e⟩

/-- The `for agent in payload.agents` loop of `query_agents`
(main.py lines 176-207), threading the external trace left to right. -/
def runAgents (env : Env) (query : String) :
    List AgentInput → TraceState → List AgentResponse × TraceState
  | [], st => ([], st)
  | agent :: rest, st =>
    let r := invoke_bedrock_agent env st agent.region agent.agent_id agent.alias_id query
    let rs := runAgents env query rest r.2
    (mkResponse agent r.1 :: rs.1, rs.2)

/-- `query_agents` (main.py lines 156-209): reject an empty agent list with a
400 `HTTPException`, otherwise run every agent and return the aggregate
response (HTTP 200, modelled as `Except.ok`). -/
def query_agents (env : Env) (st : TraceState) (payload : QueryAgentsRequest) :
    Except HTTPException QueryAgentsResponse × TraceState :=
  if payload.agents.isEmpty then
    (.error ⟨400, "At least one agent must be provided."⟩, st)
  else
    (.ok ⟨payload.query, (runAgents env payload.query payload.agents st).1⟩,
     (runAgents env payload.query payload.agents st).2)

/-- A raw (unvalidated) agent descriptor exactly as submitted by the caller. -/
structure RawAgentInput where
  role : String
  agent_id : String
  alias_id : String
  region : String
deriving DecidableEq, Repr

/-- A raw (unvalidated) request body. -/
structure RawRequest where
  agents : List RawAgentInput
  query : String
deriving DecidableEq, Repr

/-- Python's `str.strip()` (the trimming applied by
`constr(strip_whitespace=True)`): remove leading and trailing whitespace. -/
def pyStrip (s : String) : String :=
  String.mk (((s.data.dropWhile Char.isWhitespace).reverse.dropWhile
    Char.isWhitespace).reverse)

/-- Modelled from the spec: the request schema validation library (pydantic)
is an external collaborator; `main.py` lines 8-19 declare every descriptor
field and the query as `constr(strip_whitespace=True, min_length=1)`, and the
spec prescribes that a field that is empty after trimming fails the request
with a 400 `InvalidRequest` before orchestration.  `validate_constr` strips
leading/trailing whitespace and rejects an empty result. -/
def validate_constr (s : String) : Except HTTPException String :=
  if pyStrip s = "" then .error ⟨400, "Invalid input request."⟩
  else .ok (pyStrip s)

/-- Modelled from the spec: validation of one `AgentInput`
(main.py lines 8-13), field by field. -/
def validate_agent_input (a : RawAgentInput) : Except HTTPException AgentInput :=
  match validate_constr a.role with
  | .error e => .error e
  | .ok role =>
    match validate_constr a.agent_id with
    | .error e => .error e
    | .ok agent_id =>
      match validate_constr a.alias_id with
      | .error e => .error e
      | .ok alias_id =>
        match validate_constr a.region with
        | .error e => .error e
        | .ok region => .ok ⟨role, agent_id, alias_id, region⟩

/-- Modelled from the spec: validation of the agent list, element by element,
order preserved. -/
def validate_agents : List RawAgentInput → Except HTTPException (List AgentInput)
  | [] => .ok []
  | a :: rest =>
    match validate_agent_input a with
    | .error e => .error e
    | .ok v =>
      match validate_agents rest with
      | .error e => .error e
      | .ok vs => .ok (v :: vs)

/-- Modelled from the spec: validation of a whole `QueryAgentsRequest`
(main.py lines 16-19); enforced before the handler body runs. -/
def validate_request (r : RawRequest) : Except HTTPException QueryAgentsRequest :=
  match validate_agents r.agents with
  | .error e => .error e
  | .ok agents =>
    match validate_constr r.query with
    | .error e => .error e
    | .ok query => .ok ⟨agents, query⟩

/-- The full `POST /query_agents` operation: schema validation followed by the
handler.  A validation failure leaves the trace untouched — no remote
invocation is attempted. -/
def handle_query_agents (env : Env) (st : TraceState) (raw : RawRequest) :
    Except HTTPException QueryAgentsResponse × TraceState :=
  match validate_request raw with
  | .error e => (.error e, st)
  | .ok payload => query_agents env st payload

/-- The trimming performed by the `constr(strip_whitespace=True, ...)` fields
of `AgentInput`. -/
def trimAgent (a : RawAgentInput) : AgentInput :=
  ⟨pyStrip a.role, pyStrip a.agent_id, pyStrip a.alias_id, pyStrip a.region⟩

/-! ### Lemmas about the response normaliser -/

/-- A successful lookup means the key occurs in the dict. -/
lemma mem_dkeys_of_lookup {r : List (String × PyVal)} {k : String} {v : PyVal}
    (h : r.lookup k = some v) : k ∈ dkeys r := by
  have hs : (r.lookup k).isSome := by rw [h]; rfl
  rw [List.lookup_isSome_iff] at hs
  obtain ⟨p, hp, he⟩ := hs
  simp only [dkeys, List.mem_map]
  exact ⟨p, hp, (eq_of_beq he).symm⟩

/-- Every entry of `copyRecognized r` carries a recognised key and the value
stored for it in `r`. -/
lemma mem_copyRecognized {r : List (String × PyVal)} {p : String × PyVal}
    (h : p ∈ copyRecognized r) :
    p.1 ∈ recognizedKeys ∧ r.lookup p.1 = some p.2 := by
  simp only [copyRecognized, List.mem_filterMap] at h
  obtain ⟨k', hk', hf⟩ := h
  cases hl : r.lookup k' <;> rw [hl] at hf
  · exact absurd hf (by simp)
  · simp only [Option.some.injEq] at hf
    subst hf
    exact ⟨hk', hl⟩

/-- Keys of `copyRecognized r` are recognised keys present in `r`. -/
lemma mem_of_copyRecognized_keys {r : List (String × PyVal)} {k : String}
    (h : k ∈ dkeys (copyRecognized r)) :
    k ∈ recognizedKeys ∧ k ∈ dkeys r := by
  simp only [dkeys, List.mem_map] at h
  obtain ⟨p, hp, hfst⟩ := h
  obtain ⟨h1, h2⟩ := mem_copyRecognized hp
  subst hfst
  exact ⟨h1, mem_dkeys_of_lookup h2⟩

/-- The canonical key `text` is never produced by the plain copy phase. -/
lemma lookup_copyRecognized_text (r : List (String × PyVal)) :
    (copyRecognized r).lookup "text" = none := by
  rw [List.lookup_eq_none_iff]
  intro p hp
  obtain ⟨h1, _⟩ := mem_copyRecognized hp
  simp only [recognizedKeys, List.mem_cons, List.not_mem_nil, or_false] at h1
  rcases h1 with h | h | h | h <;> (rw [h]; decide)

/-- `normalizeResponse` is the copy phase, optionally followed by the single
canonical `text` entry. -/
lemma normalizeResponse_shape (r : List (String × PyVal)) :
    normalizeResponse r = copyRecognized r ∨
    ∃ t, normalizeResponse r = copyRecognized r ++ [("text", t)] := by
  unfold normalizeResponse
  split
  · split
    · right; exact ⟨_, rfl⟩
    · left; rfl
  · left; rfl

/-- When `completion` is a dict with extractable text, `normalizeResponse`
appends the canonical entry. -/
lemma normalizeResponse_eq_append {r c : List (String × PyVal)} {t : PyVal}
    (hc : r.lookup "completion" = some (.vDict c))
    (ht : completionText c = some t) :
    normalizeResponse r = copyRecognized r ++ [("text", t)] := by
  unfold normalizeResponse
  split
  · rename_i c' hmatch
    rw [hc] at hmatch
    simp only [Option.some.injEq, PyVal.vDict.injEq] at hmatch
    subst hmatch
    split
    · rename_i t' hmatch2
      rw [ht] at hmatch2
      simp only [Option.some.injEq] at hmatch2
      subst hmatch2
      rfl
    · rename_i hmatch2
      rw [ht] at hmatch2
      exact absurd hmatch2 (by simp)
  · rename_i hmatch
    exact absurd (hmatch _ hc) (fun h => h)

/-- **C7** (safety): normalisation never fails (it is a total function of the
raw response), its output contains only the recognised top-level keys
`sessionId`, `invocationId`, `contentType`, `completion` plus the canonical
`text` key, every non-`text` key it emits was actually present in the raw
response, and the empty raw mapping normalises to the empty mapping. -/
theorem normalizeResponse_total_lossy (response : List (String × PyVal)) :
    (∀ k ∈ dkeys (normalizeResponse response),
      k ∈ ["sessionId", "invocationId", "contentType", "completion", "text"]) ∧
    (∀ k ∈ dkeys (normalizeResponse response), k ≠ "text" → k ∈ dkeys response) ∧
    normalizeResponse [] = [] := by
  have hsub : ∀ k ∈ dkeys (normalizeResponse response),
      k = "text" ∨ (k ∈ recognizedKeys ∧ k ∈ dkeys response) := by
    intro k hk
    rcases normalizeResponse_shape response with h | ⟨t, h⟩
    · rw [h] at hk
      exact Or.inr (mem_of_copyRecognized_keys hk)
    · rw [h] at hk
      simp only [dkeys, List.map_append] at hk
      rcases List.mem_append.mp hk with h1 | h1
      · exact Or.inr (mem_of_copyRecognized_keys h1)
      · left
        simpa using h1
  refine ⟨?_, ?_, rfl⟩
  · intro k hk
    rcases hsub k hk with h | ⟨h, _⟩
    · simp [h]
    · simp only [recognizedKeys, List.mem_cons, List.not_mem_nil, or_false] at h
      rcases h with h | h | h | h <;> simp [h]
  · intro k hk hne
    rcases hsub k hk with h | ⟨_, h2⟩
    · exact absurd h hne
    · exact h2

/-- Concrete raw response used to witness C7. -/
def exRawC7 : List (String × PyVal) :=
  [("completion", .vDict [("text", .vStr "hello")]), ("junk", .vInt 3)]

/-- Witness for C7 at a concrete raw response containing a `completion` dict
and an unrecognised key. -/
theorem normalizeResponse_total_lossy_witness :
    "completion" ∈ dkeys (normalizeResponse exRawC7) ∧
    "completion" ∈ ["sessionId", "invocationId", "contentType", "completion", "text"] ∧
    "completion" ∈ dkeys exRawC7 :=
  ⟨by decide,
   (normalizeResponse_total_lossy exRawC7).1 "completion" (by decide),
   (normalizeResponse_total_lossy exRawC7).2.1 "completion" (by decide) (by decide)⟩

/-- **C8** (functional correctness): when the raw response holds a
`completion` dict whose `text`/`content` alias chain extracts a value `t`,
the normalised mapping stores `t` under the canonical key `text`; and the
concrete raw response containing only a completion with text `hello`
normalises to exactly the copied completion entry plus the canonical text
entry — no fabricated keys. -/
theorem normalizeResponse_completion_text :
    (∀ (r c : List (String × PyVal)) (t : PyVal),
      r.lookup "completion" = some (.vDict c) →
      completionText c = some t →
      (normalizeResponse r).lookup "text" = some t) ∧
    normalizeResponse [("completion", .vDict [("text", .vStr "hello")])] =
      [("completion", .vDict [("text", .vStr "hello")]), ("text", .vStr "hello")] := by
  constructor
  · intro r c t hc ht
    rw [normalizeResponse_eq_append hc ht, List.lookup_append,
      lookup_copyRecognized_text]
    simp
  · rfl

/-- Witness for C8 at the concrete raw response of the spec's example. -/
theorem normalizeResponse_completion_text_witness :
    ([("completion", PyVal.vDict [("text", PyVal.vStr "hello")])].lookup "completion"
      = some (.vDict [("text", PyVal.vStr "hello")])) ∧
    completionText [("text", PyVal.vStr "hello")] = some (.vStr "hello") ∧
    (normalizeResponse
        [("completion", PyVal.vDict [("text", PyVal.vStr "hello")])]).lookup "text"
      = some (.vStr "hello") :=
  ⟨rfl, rfl, normalizeResponse_completion_text.1 _ _ _ rfl rfl⟩

/-! ### Lemmas about the fan-out orchestrator -/

/-- The loop produces exactly one outcome per input agent. -/
lemma runAgents_length (env : Env) (q : String) :
    ∀ (agents : List AgentInput) (st : TraceState),
      ((runAgents env q agents st).1).length = agents.length := by
  intro agents
  induction agents with
  | nil => intro st; rfl
  | cons a rest ih => intro st; simp [runAgents, ih]

/-- The outcome at position `i` is the per-item wrapping of agent `i`'s own
invocation, performed from some intermediate trace state. -/
lemma runAgents_getElem (env : Env) (q : String) :
    ∀ (agents : List AgentInput) (st : TraceState) (i : Nat), i < agents.length →
      ∃ (stI : TraceState) (aI : AgentInput), agents[i]? = some aI ∧
        ((runAgents env q agents st).1)[i]? =
          some (mkResponse aI
            (invoke_bedrock_agent env stI aI.region aI.agent_id aI.alias_id q).1) := by
  intro agents
  induction agents with
  | nil => intro st i h; simp at h
  | cons a rest ih =>
    intro st i h
    cases i with
    | zero => exact ⟨st, a, by simp, by simp [runAgents]⟩
    | succ n =>
      have h' : n < rest.length := by simpa using h
      obtain ⟨stI, aI, h1, h2⟩ :=
        ih (invoke_bedrock_agent env st a.region a.agent_id a.alias_id q).2 n h'
      refine ⟨stI, aI, by simpa using h1, ?_⟩
      simpa [runAgents] using h2

/-- Every outcome produced by the loop is a per-item wrapping. -/
lemma runAgents_mem (env : Env) (q : String) :
    ∀ (agents : List AgentInput) (st : TraceState) (r : AgentResponse),
      r ∈ (runAgents env q agents st).1 → ∃ a e, r = mkResponse a e := by
  intro agents
  induction agents with
  | nil => intro st r h; simp [runAgents] at h
  | cons a rest ih =>
    intro st r h
    simp only [runAgents] at h
    rcases List.mem_cons.mp h with h | h
    · exact ⟨a, _, h⟩
    · exact ih _ r h

/-- The per-item wrapping echoes the agent's metadata whatever the outcome. -/
lemma mkResponse_meta (a : AgentInput) (e : Except String (List (String × PyVal))) :
    (mkResponse a e).role = a.role ∧ (mkResponse a e).agent_id = a.agent_id ∧
    (mkResponse a e).alias_id = a.alias_id ∧ (mkResponse a e).region = a.region := by
  cases e <;> exact ⟨rfl, rfl, rfl, rfl⟩

/-- The per-item wrapping populates exactly one of `output`/`error`, gated by
`success`. -/
lemma mkResponse_exclusive (a : AgentInput)
    (e : Except String (List (String × PyVal))) :
    ((mkResponse a e).success = true →
      (mkResponse a e).error = none ∧ (mkResponse a e).output ≠ none) ∧
    ((mkResponse a e).success = false →
      (mkResponse a e).output = none ∧ (mkResponse a e).error ≠ none) := by
  cases e <;> simp [mkResponse]

/-- On a non-empty agent list, the endpoint returns HTTP 200 with the loop's
results. -/
lemma query_agents_ok {payload : QueryAgentsRequest} (h : payload.agents ≠ [])
    (env : Env) (st : TraceState) :
    query_agents env st payload =
      (.ok ⟨payload.query, (runAgents env payload.query payload.agents st).1⟩,
       (runAgents env payload.query payload.agents st).2) := by
  have hne : payload.agents.isEmpty = false := by
    cases hag : payload.agents with
    | nil => exact absurd hag h
    | cons a rest => rfl
  simp [query_agents, hne]

/-- Inversion: a 200 response determines the results and the final trace. -/
lemma query_agents_ok_inv {env : Env} {st : TraceState}
    {payload : QueryAgentsRequest} {resp : QueryAgentsResponse}
    {st' : TraceState}
    (hok : query_agents env st payload = (.ok resp, st')) :
    resp = ⟨payload.query, (runAgents env payload.query payload.agents st).1⟩ ∧
    st' = (runAgents env payload.query payload.agents st).2 := by
  unfold query_agents at hok
  split at hok
  · injection hok with h1 h2
    exact Except.noConfusion h1
  · injection hok with h1 h2
    injection h1 with h1
    exact ⟨h1.symm, h2.symm⟩

/-- **C1** (error handling, failure isolation): for every environment and
every validated non-empty request, `query_agents` returns HTTP 200 with one
outcome per agent, and the outcome at each position `i` is exactly the
per-item wrapping of agent `i`'s own invocation — an exception raised while
invoking that agent (transport failure or client-construction failure alike)
is caught at that item's boundary (`mkResponse` of the `Except.error`), and
every other agent still receives its own outcome. -/
theorem query_agents_failure_isolation (env : Env) (st : TraceState)
    (payload : QueryAgentsRequest) (h : payload.agents ≠ []) :
    ∃ (resp : QueryAgentsResponse) (st' : TraceState),
      query_agents env st payload = (.ok resp, st') ∧
      resp.results.length = payload.agents.length ∧
      ∀ i, i < payload.agents.length →
        ∃ (stI : TraceState) (aI : AgentInput), payload.agents[i]? = some aI ∧
          resp.results[i]? =
            some (mkResponse aI
              (invoke_bedrock_agent env stI aI.region aI.agent_id aI.alias_id
                payload.query).1) := by
  refine ⟨_, _, query_agents_ok h env st, ?_, ?_⟩
  · exact runAgents_length env payload.query payload.agents st
  · intro i hi
    exact runAgents_getElem env payload.query payload.agents st i hi

/-- Environment for the witnesses: the agent in region `bad` fails with a
client-construction error, every other invocation succeeds. -/
def envW1 : Env where
  clientError := fun r => if r = "bad" then some "boom" else none
  invokeAgent := fun _ _ _ _ _ => .ok [("sessionId", .vStr "s")]
  uuidStream := fun _ => "u"

/-- Three agents, the middle one targeting the failing region. -/
def payloadW1 : QueryAgentsRequest :=
  ⟨[⟨"r1", "a1", "l1", "us"⟩, ⟨"r2", "a2", "l2", "bad"⟩, ⟨"r3", "a3", "l3", "us"⟩],
   "q"⟩

/-- Witness for C1: a concrete three-agent batch whose middle agent fails. -/
theorem query_agents_failure_isolation_witness :
    payloadW1.agents ≠ [] ∧
    ∃ (resp : QueryAgentsResponse) (st' : TraceState),
      query_agents envW1 ⟨0, []⟩ payloadW1 = (.ok resp, st') ∧
      resp.results.length = payloadW1.agents.length ∧
      ∀ i, i < payloadW1.agents.length →
        ∃ (stI : TraceState) (aI : AgentInput), payloadW1.agents[i]? = some aI ∧
          resp.results[i]? =
            some (mkResponse aI
              (invoke_bedrock_agent envW1 stI aI.region aI.agent_id aI.alias_id
                payloadW1.query).1) :=
  ⟨by decide, query_agents_failure_isolation envW1 ⟨0, []⟩ payloadW1 (by decide)⟩

/-- **C2** (functional correctness, order and length preservation): a 200
response carries exactly one result per input agent, and the result at every
position echoes the `role`, `agent_id`, `alias_id` and `region` of the agent
at the same position of the input. -/
theorem query_agents_order_preservation (env : Env) (st : TraceState)
    (payload : QueryAgentsRequest) (h : payload.agents ≠ [])
    (resp : QueryAgentsResponse) (st' : TraceState)
    (hok : query_agents env st payload = (.ok resp, st')) :
    resp.results.length = payload.agents.length ∧
    ∀ (i : Nat) (aI : AgentInput) (rI : AgentResponse),
      payload.agents[i]? = some aI → resp.results[i]? = some rI →
      rI.role = aI.role ∧ rI.agent_id = aI.agent_id ∧
      rI.alias_id = aI.alias_id ∧ rI.region = aI.region := by
  obtain ⟨hresp, -⟩ := query_agents_ok_inv hok
  subst hresp
  refine ⟨runAgents_length env payload.query payload.agents st, ?_⟩
  intro i aI rI ha hr
  have hi : i < payload.agents.length := by
    obtain ⟨hlt, -⟩ := List.getElem?_eq_some_iff.mp ha
    exact hlt
  obtain ⟨stI, aI', ha', hr'⟩ :=
    runAgents_getElem env payload.query payload.agents st i hi
  rw [ha] at ha'
  injection ha' with ha'
  subst ha'
  rw [hr] at hr'
  injection hr' with hr'
  subst hr'
  exact mkResponse_meta _ _

/-- The per-agent outcomes of the C1/C2 witness run, and its final trace. -/
def errRecW1 : AgentResponse :=
  ⟨"r2", "a2", "l2", "bad", false, none, some "boom"⟩

/-- Aggregate response of the witness run on `envW1`/`payloadW1`. -/
def respW1 : QueryAgentsResponse :=
  ⟨"q",
   [⟨"r1", "a1", "l1", "us", true, some [("sessionId", .vStr "s")], none⟩,
    errRecW1,
    ⟨"r3", "a3", "l3", "us", true, some [("sessionId", .vStr "s")], none⟩]⟩

/-- Final trace of the witness run on `envW1`/`payloadW1`. -/
def stW1 : TraceState :=
  ⟨2, [⟨"us", "a1", "l1", "u", "q"⟩, ⟨"us", "a3", "l3", "u", "q"⟩]⟩

/-- Witness for C2 on the three-agent batch of the C1 witness, position 1. -/
theorem query_agents_order_preservation_witness :
    payloadW1.agents ≠ [] ∧
    query_agents envW1 ⟨0, []⟩ payloadW1 = (.ok respW1, stW1) ∧
    payloadW1.agents[1]? = some ⟨"r2", "a2", "l2", "bad"⟩ ∧
    respW1.results[1]? = some errRecW1 ∧
    errRecW1.role = "r2" := by
  have hm := (query_agents_order_preservation envW1 ⟨0, []⟩ payloadW1 (by decide)
      respW1 stW1 rfl).2 1 ⟨"r2", "a2", "l2", "bad"⟩ errRecW1 rfl rfl
  exact ⟨by decide, rfl, rfl, rfl, hm.1⟩

/-- **C3** (invariant, outcome field exclusivity): in every 200 response of
the orchestrator, each outcome satisfies: `success=true` implies `error` is
`None` and `output` is present, and `success=false` implies `output` is
`None` and `error` is present. -/
theorem query_agents_outcome_exclusivity (env : Env) (st : TraceState)
    (payload : QueryAgentsRequest) (resp : QueryAgentsResponse)
    (st' : TraceState)
    (hok : query_agents env st payload = (.ok resp, st')) :
    ∀ r ∈ resp.results,
      (r.success = true → r.error = none ∧ r.output ≠ none) ∧
      (r.success = false → r.output = none ∧ r.error ≠ none) := by
  obtain ⟨hresp, -⟩ := query_agents_ok_inv hok
  subst hresp
  intro r hr
  obtain ⟨a, e, rfl⟩ := runAgents_mem env payload.query payload.agents st r hr
  exact mkResponse_exclusive a e

/-- Witness for C3: the failing middle outcome of the witness run. -/
theorem query_agents_outcome_exclusivity_witness :
    query_agents envW1 ⟨0, []⟩ payloadW1 = (.ok respW1, stW1) ∧
    errRecW1 ∈ respW1.results ∧
    errRecW1.success = false ∧
    (errRecW1.output = none ∧ errRecW1.error ≠ none) := by
  have hmem : errRecW1 ∈ respW1.results := by
    exact List.mem_cons_of_mem _ (List.mem_cons_self _ _)
  exact ⟨rfl, hmem, rfl,
    (query_agents_outcome_exclusivity envW1 ⟨0, []⟩ payloadW1 respW1 stW1 rfl
      errRecW1 hmem).2 rfl⟩

/-- **C4** (error handling, empty-list validation with atomicity): a request
whose agents list is empty is rejected with the 400 `HTTPException` of
main.py line 172, and the external trace is returned unchanged — no UUID is
consumed and no remote invocation is attempted, so zero results are
produced. -/
theorem query_agents_empty_rejected (env : Env) (st : TraceState) (q : String) :
    query_agents env st ⟨[], q⟩ =
      (.error ⟨400, "At least one agent must be provided."⟩, st) := rfl

/-- Environment whose single remote call raises an exception with an empty
message (Python `raise Exception()`, `str(e) == ""`). -/
def envC6 : Env where
  clientError := fun _ => none
  invokeAgent := fun _ _ _ _ _ => .error ""
  uuidStream := fun _ => "u"

/-- Counterexample to C6 as stated: a failing remote call whose exception
carries an empty message yields `success=false` with `error` present but
EMPTY (`some ""`), so the result's error string is not non-empty. -/
theorem query_agents_error_empty_cex :
    query_agents envC6 ⟨0, []⟩ ⟨[⟨"r", "a", "l", "us"⟩], "q"⟩ =
      (.ok ⟨"q", [⟨"r", "a", "l", "us", false, none, some ""⟩]⟩,
       ⟨1, [⟨"us", "a", "l", "u", "q"⟩]⟩) := rfl

/-- **C6** (amended): for every agent whose remote call fails, the result at
its position has `success=false`, `output=None`, a present (non-`None`)
`error` string — the exception's message, hence non-empty whenever that
message is non-empty — and still echoes the agent's `role`, `agent_id`,
`alias_id` and `region`. -/
theorem query_agents_failure_reporting (env : Env) (st : TraceState)
    (payload : QueryAgentsRequest) (resp : QueryAgentsResponse)
    (st' : TraceState)
    (hok : query_agents env st payload = (.ok resp, st')) :
    ∀ (i : Nat) (aI : AgentInput) (rI : AgentResponse),
      payload.agents[i]? = some aI → resp.results[i]? = some rI →
      rI.success = false →
      rI.output = none ∧ rI.error ≠ none ∧
      rI.role = aI.role ∧ rI.agent_id = aI.agent_id ∧
      rI.alias_id = aI.alias_id ∧ rI.region = aI.region := by
  obtain ⟨hresp, -⟩ := query_agents_ok_inv hok
  subst hresp
  intro i aI rI ha hr hfail
  have hi : i < payload.agents.length := by
    obtain ⟨hlt, -⟩ := List.getElem?_eq_some_iff.mp ha
    exact hlt
  obtain ⟨stI, aI', ha', hr'⟩ :=
    runAgents_getElem env payload.query payload.agents st i hi
  rw [ha] at ha'
  injection ha' with ha'
  subst ha'
  rw [hr] at hr'
  injection hr' with hr'
  subst hr'
  obtain ⟨h1, h2⟩ := mkResponse_exclusive aI
    (invoke_bedrock_agent env stI aI.region aI.agent_id aI.alias_id payload.query).1
  obtain ⟨ho, he⟩ := h2 hfail
  obtain ⟨m1, m2, m3, m4⟩ := mkResponse_meta aI
    (invoke_bedrock_agent env stI aI.region aI.agent_id aI.alias_id payload.query).1
  exact ⟨ho, he, m1, m2, m3, m4⟩

/-- Witness for the amended C6 at the failing middle agent of the witness
run. -/
theorem query_agents_failure_reporting_witness :
    query_agents envW1 ⟨0, []⟩ payloadW1 = (.ok respW1, stW1) ∧
    payloadW1.agents[1]? = some ⟨"r2", "a2", "l2", "bad"⟩ ∧
    respW1.results[1]? = some errRecW1 ∧
    errRecW1.success = false ∧
    (errRecW1.output = none ∧ errRecW1.error ≠ none ∧
      errRecW1.role = "r2" ∧ errRecW1.agent_id = "a2" ∧
      errRecW1.alias_id = "l2" ∧ errRecW1.region = "bad") :=
  ⟨rfl, rfl, rfl, rfl,
   query_agents_failure_reporting envW1 ⟨0, []⟩ payloadW1 respW1 stW1 rfl
     1 ⟨"r2", "a2", "l2", "bad"⟩ errRecW1 rfl rfl rfl⟩

/-! ### Lemmas about request validation -/

/-- One raw descriptor has a blank (empty or whitespace-only) field. -/
def agentHasBlank (a : RawAgentInput) : Prop :=
  pyStrip a.role = "" ∨ pyStrip a.agent_id = "" ∨
  pyStrip a.alias_id = "" ∨ pyStrip a.region = ""

/-- The raw request has a blank query or some blank descriptor field. -/
def hasBlankField (raw : RawRequest) : Prop :=
  pyStrip raw.query = "" ∨ ∃ a ∈ raw.agents, agentHasBlank a

lemma validate_constr_ok {s t : String} (h : validate_constr s = .ok t) :
    pyStrip s ≠ "" ∧ t = pyStrip s := by
  unfold validate_constr at h
  split at h
  · exact Except.noConfusion h
  · rename_i hne
    injection h with h
    exact ⟨hne, h.symm⟩

lemma validate_constr_error {s : String} {e : HTTPException}
    (h : validate_constr s = .error e) :
    e = ⟨400, "Invalid input request."⟩ ∧ pyStrip s = "" := by
  unfold validate_constr at h
  split at h
  · rename_i heq
    injection h with h
    exact ⟨h.symm, heq⟩
  · exact Except.noConfusion h

lemma validate_agent_input_ok {a : RawAgentInput} {v : AgentInput}
    (h : validate_agent_input a = .ok v) :
    v = trimAgent a ∧ ¬ agentHasBlank a := by
  unfold validate_agent_input at h
  split at h
  · exact Except.noConfusion h
  · rename_i r1 h1
    split at h
    · exact Except.noConfusion h
    · rename_i r2 h2
      split at h
      · exact Except.noConfusion h
      · rename_i r3 h3
        split at h
        · exact Except.noConfusion h
        · rename_i r4 h4
          injection h with h
          obtain ⟨n1, e1⟩ := validate_constr_ok h1
          obtain ⟨n2, e2⟩ := validate_constr_ok h2
          obtain ⟨n3, e3⟩ := validate_constr_ok h3
          obtain ⟨n4, e4⟩ := validate_constr_ok h4
          subst e1; subst e2; subst e3; subst e4
          refine ⟨h.symm, ?_⟩
          rintro (hb | hb | hb | hb)
          · exact n1 hb
          · exact n2 hb
          · exact n3 hb
          · exact n4 hb

lemma validate_agent_input_error {a : RawAgentInput} {e : HTTPException}
    (h : validate_agent_input a = .error e) :
    e = ⟨400, "Invalid input request."⟩ := by
  unfold validate_agent_input at h
  split at h
  · rename_i h1
    injection h with h
    exact h ▸ (validate_constr_error h1).1
  · split at h
    · rename_i h2
      injection h with h
      exact h ▸ (validate_constr_error h2).1
    · split at h
      · rename_i h3
        injection h with h
        exact h ▸ (validate_constr_error h3).1
      · split at h
        · rename_i h4
          injection h with h
          exact h ▸ (validate_constr_error h4).1
        · exact Except.noConfusion h

lemma validate_agents_ok :
    ∀ {l : List RawAgentInput} {vs : List AgentInput},
      validate_agents l = .ok vs →
      vs = l.map trimAgent ∧ ∀ a ∈ l, ¬ agentHasBlank a := by
  intro l
  induction l with
  | nil =>
    intro vs h
    injection h with h
    exact ⟨h.symm, by intro a ha; simp at ha⟩
  | cons a rest ih =>
    intro vs h
    unfold validate_agents at h
    split at h
    · exact Except.noConfusion h
    · rename_i v hv
      split at h
      · exact Except.noConfusion h
      · rename_i vs' hvs
        injection h with h
        obtain ⟨hv1, hv2⟩ := validate_agent_input_ok hv
        obtain ⟨h1, h2⟩ := ih hvs
        subst hv1
        subst h1
        refine ⟨h.symm, ?_⟩
        intro x hx
        rcases List.mem_cons.mp hx with rfl | hx
        · exact hv2
        · exact h2 x hx

lemma validate_agents_error :
    ∀ {l : List RawAgentInput} {e : HTTPException},
      validate_agents l = .error e →
      e = ⟨400, "Invalid input request."⟩ := by
  intro l
  induction l with
  | nil => intro e h; exact Except.noConfusion h
  | cons a rest ih =>
    intro e h
    unfold validate_agents at h
    split at h
    · rename_i hv
      injection h with h
      exact h ▸ validate_agent_input_error hv
    · split at h
      · rename_i hvs
        injection h with h
        exact h ▸ ih hvs
      · exact Except.noConfusion h

lemma validate_request_ok {r : RawRequest} {p : QueryAgentsRequest}
    (h : validate_request r = .ok p) :
    p = ⟨r.agents.map trimAgent, pyStrip r.query⟩ ∧
    pyStrip r.query ≠ "" ∧ ∀ a ∈ r.agents, ¬ agentHasBlank a := by
  unfold validate_request at h
  split at h
  · exact Except.noConfusion h
  · rename_i vs hvs
    split at h
    · exact Except.noConfusion h
    · rename_i q hq
      injection h with h
      obtain ⟨h1, h2⟩ := validate_agents_ok hvs
      obtain ⟨n1, e1⟩ := validate_constr_ok hq
      subst h1
      subst e1
      exact ⟨h.symm, n1, h2⟩

lemma validate_request_error {r : RawRequest} {e : HTTPException}
    (h : validate_request r = .error e) :
    e = ⟨400, "Invalid input request."⟩ := by
  unfold validate_request at h
  split at h
  · rename_i hvs
    injection h with h
    exact h ▸ validate_agents_error hvs
  · split at h
    · rename_i hq
      injection h with h
      exact h ▸ (validate_constr_error hq).1
    · exact Except.noConfusion h

/-- **C5** (error handling, field validation): any request in which a
descriptor field or the query is empty or whitespace-only is rejected with a
400 `InvalidRequest` error before any orchestration: the handler body never
runs and the external trace is returned untouched (no remote invocation, no
UUID consumed). -/
theorem blank_field_rejected (env : Env) (st : TraceState) (raw : RawRequest)
    (h : hasBlankField raw) :
    handle_query_agents env st raw =
      (.error ⟨400, "Invalid input request."⟩, st) := by
  unfold handle_query_agents
  cases hv : validate_request raw with
  | error e =>
    rw [validate_request_error hv]
  | ok p =>
    exfalso
    obtain ⟨-, hq, hagents⟩ := validate_request_ok hv
    rcases h with h | ⟨a, ha, hb⟩
    · exact hq h
    · exact hagents a ha hb

/-- A raw request whose single descriptor has a whitespace-only `role`. -/
def rawW5 : RawRequest := ⟨[⟨"  ", "a", "l", "us"⟩], "q"⟩

/-- Witness for C5 at a concrete request with a blank role field. -/
theorem blank_field_rejected_witness :
    hasBlankField rawW5 ∧
    handle_query_agents envW1 ⟨0, []⟩ rawW5 =
      (.error ⟨400, "Invalid input request."⟩, ⟨0, []⟩) := by
  have hb : hasBlankField rawW5 :=
    Or.inr ⟨⟨"  ", "a", "l", "us"⟩, List.mem_cons_self _ _,
      Or.inl (by decide)⟩
  exact ⟨hb, blank_field_rejected envW1 ⟨0, []⟩ rawW5 hb⟩

/-! ### Lemmas about the external trace -/

/-- `st'` extends `st`: the call list only grows, and each new call consumed
exactly one fresh consecutive position of the UUID stream for its session
id. -/
def TraceExtends (env : Env) (st st' : TraceState) : Prop :=
  st.ctr ≤ st'.ctr ∧
  st'.calls.map CallRecord.session_id =
    st.calls.map CallRecord.session_id ++
      (List.range' st.ctr (st'.ctr - st.ctr)).map env.uuidStream

lemma traceExtends_refl (env : Env) (st : TraceState) :
    TraceExtends env st st := by
  refine ⟨le_refl _, ?_⟩
  simp

lemma traceExtends_trans {env : Env} {st₁ st₂ st₃ : TraceState}
    (h12 : TraceExtends env st₁ st₂) (h23 : TraceExtends env st₂ st₃) :
    TraceExtends env st₁ st₃ := by
  obtain ⟨l12, e12⟩ := h12
  obtain ⟨l23, e23⟩ := h23
  refine ⟨le_trans l12 l23, ?_⟩
  have h1 : st₁.ctr + (st₂.ctr - st₁.ctr) = st₂.ctr := by omega
  have hr : List.range' st₁.ctr (st₂.ctr - st₁.ctr) ++
      List.range' st₂.ctr (st₃.ctr - st₂.ctr)
      = List.range' st₁.ctr (st₃.ctr - st₁.ctr) := by
    calc List.range' st₁.ctr (st₂.ctr - st₁.ctr) ++
          List.range' st₂.ctr (st₃.ctr - st₂.ctr)
        = List.range' st₁.ctr (st₂.ctr - st₁.ctr) ++
          List.range' (st₁.ctr + (st₂.ctr - st₁.ctr)) (st₃.ctr - st₂.ctr) := by
          rw [h1]
      _ = List.range' st₁.ctr ((st₃.ctr - st₂.ctr) + (st₂.ctr - st₁.ctr)) :=
          List.range'_append_1 _ _ _
      _ = List.range' st₁.ctr (st₃.ctr - st₁.ctr) := by
          congr 1
          omega
  rw [e23, e12, List.append_assoc, ← List.map_append, hr]

/-- The remote invoker either leaves the trace unchanged (client-construction
failure) or appends exactly one call whose session id is the next UUID. -/
lemma invoke_snd_cases (env : Env) (st : TraceState)
    (region agent_id alias_id q : String) :
    (invoke_bedrock_agent env st region agent_id alias_id q).2 = st ∨
    (invoke_bedrock_agent env st region agent_id alias_id q).2 =
      ⟨st.ctr + 1,
       st.calls ++ [⟨region, agent_id, alias_id, env.uuidStream st.ctr, q⟩]⟩ := by
  unfold invoke_bedrock_agent
  split
  · exact Or.inl rfl
  · split
    · exact Or.inr rfl
    · exact Or.inr rfl

lemma invoke_traceExtends (env : Env) (st : TraceState)
    (region agent_id alias_id q : String) :
    TraceExtends env st (invoke_bedrock_agent env st region agent_id alias_id q).2 := by
  rcases invoke_snd_cases env st region agent_id alias_id q with h | h <;> rw [h]
  · exact traceExtends_refl env st
  · refine ⟨Nat.le_succ _, ?_⟩
    have h1 : st.ctr + 1 - st.ctr = 1 := by omega
    simp [h1, List.range']

lemma runAgents_traceExtends (env : Env) (q : String) :
    ∀ (agents : List AgentInput) (st : TraceState),
      TraceExtends env st (runAgents env q agents st).2 := by
  intro agents
  induction agents with
  | nil => intro st; exact traceExtends_refl env st
  | cons a rest ih =>
    intro st
    simp only [runAgents]
    exact traceExtends_trans
      (invoke_traceExtends env st a.region a.agent_id a.alias_id q)
      (ih (invoke_bedrock_agent env st a.region a.agent_id a.alias_id q).2)

lemma query_agents_traceExtends (env : Env) (st : TraceState)
    (payload : QueryAgentsRequest) :
    TraceExtends env st (query_agents env st payload).2 := by
  unfold query_agents
  split
  · exact traceExtends_refl env st
  · exact runAgents_traceExtends env payload.query payload.agents st

/-- **C9** (functional correctness, session-token freshness): starting from a
fresh trace, across two successive requests (hence in particular within one
request), every recorded remote invocation carries the session token of a
distinct position of the UUID stream; if the UUID generator never repeats
(injective stream), no session token is ever reused between any two
invocations. -/
theorem session_token_freshness (env : Env)
    (hinj : Function.Injective env.uuidStream)
    (p₁ p₂ : QueryAgentsRequest) (n : Nat) :
    ((((query_agents env (query_agents env ⟨n, []⟩ p₁).2 p₂).2).calls.map
      CallRecord.session_id)).Nodup := by
  have h := traceExtends_trans
    (query_agents_traceExtends env ⟨n, []⟩ p₁)
    (query_agents_traceExtends env (query_agents env ⟨n, []⟩ p₁).2 p₂)
  obtain ⟨-, he⟩ := h
  rw [he]
  simp only [TraceState.calls, List.map_nil, List.nil_append]
  exact (List.nodup_range' _ _).map hinj

/-- Environment for the C9/C10 witnesses: every call succeeds; the UUID
stream at position `k` is the string of `k` letters `a` (injective). -/
def envW9 : Env where
  clientError := fun _ => none
  invokeAgent := fun _ _ _ _ _ => .ok []
  uuidStream := fun k => String.mk (List.replicate k 'a')

lemma envW9_uuid_injective : Function.Injective envW9.uuidStream := by
  intro x y hxy
  have hd : String.mk (List.replicate x 'a') = String.mk (List.replicate y 'a') := hxy
  have h2 : List.replicate x 'a' = List.replicate y 'a' := congrArg String.data hd
  have h3 := congrArg List.length h2
  simpa using h3

/-- Witness for C9: two successive concrete requests on `envW9`. -/
theorem session_token_freshness_witness :
    Function.Injective envW9.uuidStream ∧
    ((((query_agents envW9 (query_agents envW9 ⟨0, []⟩ payloadW1).2
        ⟨[⟨"r4", "a4", "l4", "us"⟩], "q2"⟩).2).calls.map
      CallRecord.session_id)).Nodup :=
  ⟨envW9_uuid_injective,
   session_token_freshness envW9 envW9_uuid_injective payloadW1
     ⟨[⟨"r4", "a4", "l4", "us"⟩], "q2"⟩ 0⟩

/-- Every call the remote invoker adds to the trace carries the query it was
given as `inputText`. -/
lemma invoke_calls_inputText (env : Env) (st : TraceState)
    (region agent_id alias_id q : String) :
    ∀ cr ∈ (invoke_bedrock_agent env st region agent_id alias_id q).2.calls,
      cr ∈ st.calls ∨ cr.inputText = q := by
  rcases invoke_snd_cases env st region agent_id alias_id q with h | h <;> rw [h]
  · intro cr hcr
    exact Or.inl hcr
  · intro cr hcr
    rcases List.mem_append.mp hcr with h' | h'
    · exact Or.inl h'
    · right
      have hc : cr = ⟨region, agent_id, alias_id, env.uuidStream st.ctr, q⟩ := by
        simpa using h'
      rw [hc]

/-- Every call the loop adds to the trace carries the request's query as
`inputText`. -/
lemma runAgents_calls_inputText (env : Env) (q : String) :
    ∀ (agents : List AgentInput) (st : TraceState),
      ∀ cr ∈ (runAgents env q agents st).2.calls,
        cr ∈ st.calls ∨ cr.inputText = q := by
  intro agents
  induction agents with
  | nil => intro st cr h; exact Or.inl h
  | cons a rest ih =>
    intro st cr h
    simp only [runAgents] at h
    rcases ih (invoke_bedrock_agent env st a.region a.agent_id a.alias_id q).2 cr h
      with h' | h'
    · exact invoke_calls_inputText env st a.region a.agent_id a.alias_id q cr h'
    · exact Or.inr h'

/-- **C10** (implicit, whitespace trimming at the public interface): for every
accepted request, the query echoed in the response, every descriptor field
echoed per result, and the `inputText` of every remote invocation attempted
during the request are the stripped strings, never the raw submitted ones. -/
theorem handle_whitespace_trimming (env : Env) (n : Nat) (raw : RawRequest)
    (resp : QueryAgentsResponse) (st' : TraceState)
    (hok : handle_query_agents env ⟨n, []⟩ raw = (.ok resp, st')) :
    resp.query = pyStrip raw.query ∧
    resp.results.length = raw.agents.length ∧
    (∀ (i : Nat) (aI : RawAgentInput) (rI : AgentResponse),
      raw.agents[i]? = some aI → resp.results[i]? = some rI →
      rI.role = pyStrip aI.role ∧ rI.agent_id = pyStrip aI.agent_id ∧
      rI.alias_id = pyStrip aI.alias_id ∧ rI.region = pyStrip aI.region) ∧
    (∀ cr ∈ st'.calls, cr.inputText = pyStrip raw.query) := by
  unfold handle_query_agents at hok
  cases hv : validate_request raw with
  | error e =>
    rw [hv] at hok
    exact Except.noConfusion (congrArg Prod.fst hok)
  | ok p =>
    rw [hv] at hok
    obtain ⟨hp, -, -⟩ := validate_request_ok hv
    subst hp
    obtain ⟨hresp, hst⟩ := query_agents_ok_inv hok
    subst hresp
    subst hst
    refine ⟨rfl, ?_, ?_, ?_⟩
    · rw [runAgents_length]
      exact List.length_map _ _
    · intro i aI rI ha hr
      have hi : i < (raw.agents.map trimAgent).length := by
        rw [List.length_map]
        obtain ⟨hlt, -⟩ := List.getElem?_eq_some_iff.mp ha
        exact hlt
      obtain ⟨stI, aI', ha', hr'⟩ :=
        runAgents_getElem env (pyStrip raw.query) (raw.agents.map trimAgent)
          ⟨n, []⟩ i hi
      have hmap : (raw.agents.map trimAgent)[i]? = some (trimAgent aI) := by
        rw [List.getElem?_map, ha]
        rfl
      rw [hmap] at ha'
      injection ha' with ha'
      subst ha'
      rw [hr] at hr'
      injection hr' with hr'
      subst hr'
      exact mkResponse_meta (trimAgent aI) _
    · intro cr hcr
      rcases runAgents_calls_inputText env (pyStrip raw.query)
        (raw.agents.map trimAgent) ⟨n, []⟩ cr hcr with h | h
      · simp at h
      · exact h

/-- A raw request whose fields carry surrounding whitespace. -/
def rawW10 : RawRequest := ⟨[⟨" r ", " a ", " l ", " us "⟩], " q "⟩

/-- Aggregate response of the C10 witness run. -/
def respW10 : QueryAgentsResponse :=
  ⟨"q", [⟨"r", "a", "l", "us", true, some [], none⟩]⟩

/-- Final trace of the C10 witness run. -/
def stW10 : TraceState := ⟨1, [⟨"us", "a", "l", "", "q"⟩]⟩

/-- Witness for C10 at a concrete whitespace-laden request. -/
theorem handle_whitespace_trimming_witness :
    handle_query_agents envW9 ⟨0, []⟩ rawW10 = (.ok respW10, stW10) ∧
    respW10.query = pyStrip " q " ∧
    (∀ cr ∈ stW10.calls, cr.inputText = pyStrip " q ") := by
  have hm := handle_whitespace_trimming envW9 0 rawW10 respW10 stW10 rfl
  exact ⟨rfl, hm.1, hm.2.2.2⟩
